import Mathlib

/-!
Verification of the system-design-primer PDF toolchain
(`generate_pdf.py` and `list_markdown_files.py`).

Strings are modelled as Lean `String`s (lists of Unicode code points), which
matches Python 3 `str` semantics for the operations the scripts use
(`in`, `startswith`, `endswith`, `split('/')`, `replace`, `lower`, `title`).
Filesystem walks, file contents and the external programs (pandoc,
wkhtmltopdf, Chrome) are modelled as explicit environment records.
-/

namespace SDPrimer

/-- Boolean list-prefix test (Python `startswith` on the character level). -/
def hasPrefixB : List Char → List Char → Bool
  | [], _ => true
  | _ :: _, [] => false
  | p :: ps, c :: cs => p == c && hasPrefixB ps cs

/-- Boolean substring test (Python `pat in s` on the character level). -/
def hasInfixB (p : List Char) : List Char → Bool
  | [] => hasPrefixB p []
  | c :: cs => hasPrefixB p (c :: cs) || hasInfixB p cs

/-- Python `pat in s`. -/
def strContains (s pat : String) : Bool := hasInfixB pat.data s.data

/-- Python `s.startswith(pat)`. -/
def strStarts (s pat : String) : Bool := hasPrefixB pat.data s.data

/-- Python `s.endswith(pat)`. -/
def strEnds (s pat : String) : Bool := hasPrefixB pat.data.reverse s.data.reverse

/-- One step of Python `str.replace`: fuelled so that it is structural.
The fuel is always instantiated with the length of the input, which
suffices because each step consumes at least one character (the scripts
never call `replace` with an empty pattern; for an empty pattern this
model leaves the string unchanged). -/
def replaceAllF (p r : List Char) : Nat → List Char → List Char
  | 0, s => s
  | _ + 1, [] => []
  | f + 1, c :: t =>
    if hasPrefixB p (c :: t) && !p.isEmpty then
      r ++ replaceAllF p r f ((c :: t).drop p.length)
    else
      c :: replaceAllF p r f t

/-- Python `s.replace(p, r)` on character lists: replaces every
non-overlapping occurrence, scanning left to right. -/
def replaceAll (p r s : List Char) : List Char := replaceAllF p r s.length s

/-- Python `s.replace(p, r)`. -/
def strReplace (s p r : String) : String := ⟨replaceAll p.data r.data s.data⟩

/-- ASCII lower-casing of one character (the scripts only ever lower-case
ASCII identifiers built from path segments). -/
def lowerChar (c : Char) : Char :=
  if 65 ≤ c.toNat && c.toNat ≤ 90 then Char.ofNat (c.toNat + 32) else c

/-- Python `s.lower()`, restricted to ASCII letters. -/
def asciiLower (s : String) : String := ⟨s.data.map lowerChar⟩

def upperChar (c : Char) : Char :=
  if 97 ≤ c.toNat && c.toNat ≤ 122 then Char.ofNat (c.toNat - 32) else c

def isAsciiAlpha (c : Char) : Bool :=
  (65 ≤ c.toNat && c.toNat ≤ 90) || (97 ≤ c.toNat && c.toNat ≤ 122)

/-- Helper for Python `s.title()`: the flag records whether the previous
character was a (cased) letter. -/
def titleAux : Bool → List Char → List Char
  | _, [] => []
  | prevAlpha, c :: t =>
    (if isAsciiAlpha c then (if prevAlpha then lowerChar c else upperChar c) else c) ::
      titleAux (isAsciiAlpha c) t

/-- Python `s.title()`, restricted to ASCII letters. -/
def asciiTitle (s : String) : String := ⟨titleAux false s.data⟩

/-- Split a character list at every `/` (Python `s.split('/')`). -/
def splitSlash : List Char → List (List Char)
  | [] => [[]]
  | c :: t =>
    match splitSlash t with
    | [] => [[c]]
    | h :: hs => if c = '/' then [] :: h :: hs else (c :: h) :: hs

/-- Python `s.split('/')`. -/
def splitSlashStr (s : String) : List String := (splitSlash s.data).map (⟨·⟩)

/-- Python `os.path.basename` for slash-separated paths. -/
def basenameStr (s : String) : String := (splitSlashStr s).getLastD ""

/-- Python `os.path.dirname` for slash-separated paths. -/
def dirnameStr (s : String) : String :=
  String.intercalate "/" (splitSlashStr s).dropLast

/-- The five non-English path markers, shared verbatim by
`list_markdown_files.py` and `generate_pdf.py` (`non_english_patterns`). -/
def non_english_patterns : List String :=
  ["README-ja.md", "README-zh-Hans.md", "README-zh-TW.md", "-zh-Hans.md", "-ja.md"]

/-- `generated_files` in `list_markdown_files.py` (the Lister). -/
def generated_files : List String :=
  ["combined-system-design-primer.md", "combined-system-design-primer.html"]

/-- `is_non_english_file` from `list_markdown_files.py` (the Lister's filter). -/
def is_non_english_file (file_path : String) : Bool :=
  non_english_patterns.any (fun pat => strContains file_path pat) ||
  generated_files.any (fun g => strContains file_path g)

/-- The lexicographic (code-point) strict order Python's `sorted` uses on
strings. -/
def lexLtB : List Char → List Char → Bool
  | [], [] => false
  | [], _ :: _ => true
  | _ :: _, [] => false
  | a :: as, b :: bs => if a = b then lexLtB as bs else decide (a.toNat < b.toNat)

def strLtB (a b : String) : Bool := lexLtB a.data b.data

def insertSorted (x : String) : List String → List String
  | [] => [x]
  | y :: ys => if strLtB y x then y :: insertSorted x ys else x :: y :: ys

/-- Python `sorted` on a list of strings (insertion sort, ascending). -/
def sortStrs : List String → List String
  | [] => []
  | x :: xs => insertSorted x (sortStrs xs)

/-- A repository snapshot: the `os.walk` traversal as (relative directory,
filename) pairs in walk order, file contents and an existence test keyed by
repository-relative path, and the external pandoc notebook converter keyed
by absolute path (`none` models a failed conversion: a non-zero exit status
or a raised exception, which the script treats identically). -/
structure RepoFS where
  repoPath : String
  walk : List (String × String)
  contentF : String → String
  existsF : String → Bool
  pandoc : String → Option String

/-- The directory string `os.walk` yields for a relative directory `dir`
under the repository root (the root path itself for the top directory). -/
def rootStr (fs : RepoFS) (dir : String) : String :=
  if dir = "" then fs.repoPath else fs.repoPath ++ "/" ++ dir

/-- `os.path.relpath(os.path.join(root, file), repo_path)` for a walked
file. -/
def relPath (dir file : String) : String :=
  if dir = "" then file else dir ++ "/" ++ file

/-- `str(self.repo_path / p)` for a repository-relative path `p`. -/
def fullPath (fs : RepoFS) (p : String) : String := fs.repoPath ++ "/" ++ p

/-- `find_all_markdown_files` from `list_markdown_files.py`: walk, skip any
directory whose walk path contains `.github`, keep `.md` files passing the
filter, return the relative paths sorted. -/
def find_all_markdown_files (fs : RepoFS) : List String :=
  sortStrs (fs.walk.filterMap fun df =>
    if strContains (rootStr fs df.1) ".github" then none
    else if strEnds df.2 ".md" && !is_non_english_file (relPath df.1 df.2) then
      some (relPath df.1 df.2)
    else none)

def github_blob_base : String :=
  "https://github.com/donnemartin/system-design-primer/blob/master"

def github_raw_base : String :=
  "https://raw.githubusercontent.com/donnemartin/system-design-primer/master"

/-- A Markdown link `[text](url)`; also the shape of the regex match
`match.group(0)` that `replace_md_link` returns when it leaves a link
unchanged. -/
def mkLink (text url : String) : String := "[" ++ text ++ "](" ++ url ++ ")"

namespace MarkdownPDFGenerator

/-- `excluded_files` in `generate_pdf.py` (note the extra `TRANSLATIONS.md`). -/
def excluded_files : List String :=
  ["combined-system-design-primer.md", "combined-system-design-primer.html",
   "TRANSLATIONS.md"]

/-- `MarkdownPDFGenerator.is_non_english_file` from `generate_pdf.py`
(the Generator's discovery filter). -/
def is_non_english_file (file_path : String) : Bool :=
  non_english_patterns.any (fun pat => strContains file_path pat) ||
  excluded_files.any (fun g => strContains file_path g)

/-- `MarkdownPDFGenerator.find_all_markdown_files`: like the Lister's walk
but also accepting `.ipynb` files, with the Generator's filter, and without
sorting (walk order). -/
def find_all_markdown_files (fs : RepoFS) : List String :=
  fs.walk.filterMap fun df =>
    if strContains (rootStr fs df.1) ".github" then none
    else if (strEnds df.2 ".md" || strEnds df.2 ".ipynb")
            && !is_non_english_file (relPath df.1 df.2) then
      some (relPath df.1 df.2)
    else none

/-- `self.file_order`: the Explicit Ordering List (16 entries). -/
def file_order : List String :=
  ["README.md",
   "CONTRIBUTING.md",
   "solutions/system_design/pastebin/README.md",
   "solutions/system_design/twitter/README.md",
   "solutions/system_design/web_crawler/README.md",
   "solutions/system_design/mint/README.md",
   "solutions/system_design/social_graph/README.md",
   "solutions/system_design/query_cache/README.md",
   "solutions/system_design/sales_rank/README.md",
   "solutions/system_design/scaling_aws/README.md",
   "solutions/object_oriented_design/hash_table/hash_map.ipynb",
   "solutions/object_oriented_design/lru_cache/lru_cache.ipynb",
   "solutions/object_oriented_design/call_center/call_center.ipynb",
   "solutions/object_oriented_design/deck_of_cards/deck_of_cards.ipynb",
   "solutions/object_oriented_design/parking_lot/parking_lot.ipynb",
   "solutions/object_oriented_design/online_chat/online_chat.ipynb"]

end MarkdownPDFGenerator

/-- The rules `replace_md_link` applies to a link whose URL was not handled
by the leading `http`/`https` test or by the solutions-specific block
(generate_pdf.py lines 123-149): generic `.md` anchors, `#` links kept,
`images/`・`resources/` absolutized, anything else unchanged. -/
def mdLinkRest (link_text link_url : String) : String :=
  if strEnds link_url ".md" then
    let filename := strReplace (strReplace (basenameStr link_url) ".md" "") "README" ""
    if filename ≠ "" then
      mkLink link_text ("\x23" ++ asciiLower (strReplace (strReplace filename "_" "-") " " "-"))
    else
      let dir_name := dirnameStr link_url
      if dir_name ≠ "" then
        mkLink link_text ("\x23" ++ strReplace (basenameStr dir_name) "_" "-")
      else
        mkLink link_text "\x23main-readme"
  else if strStarts link_url "\x23" then
    mkLink link_text link_url
  else if strStarts link_url "images/" || strStarts link_url "resources/" then
    mkLink link_text (github_raw_base ++ "/" ++ link_url)
  else
    mkLink link_text link_url

/-- `replace_md_link` from `process_internal_links` (generate_pdf.py lines
91-149), as a function of the two regex groups (link text and URL). -/
def replace_md_link (link_text link_url : String) : String :=
  if strStarts link_url "http://" || strStarts link_url "https://" then
    mkLink link_text link_url
  else
    let parts := splitSlashStr link_url
    if strStarts link_url "solutions/" && decide (4 ≤ parts.length) then
      let section_type := strReplace (parts.getD 1 "") "_" "-"
      let problem_name := strReplace (parts.getD 2 "") "_" "-"
      if section_type == "system-design" && strEnds link_url "README.md" then
        mkLink link_text ("\x23" ++ asciiLower (section_type ++ "-" ++ problem_name))
      else if section_type == "object-oriented-design" && strEnds link_url ".ipynb" then
        mkLink link_text ("\x23" ++ asciiLower (section_type ++ "-" ++ problem_name))
      else
        mkLink link_text (github_blob_base ++ "/" ++ link_url)
    else
      mdLinkRest link_text link_url

/-- Parse `text](url)` after an opening `[`, mirroring the regex
`\[([^\]]+)\]\(([^)]+)\)`: a non-empty run free of `]`, then `](`, then a
non-empty run free of `)`, then `)`.  Returns the two groups and the rest
of the input. -/
def tryLink (s : List Char) : Option (List Char × List Char × List Char) :=
  let t := s.takeWhile (· != ']')
  if t.isEmpty then none
  else
    match s.drop t.length with
    | ']' :: '(' :: r2 =>
      let u := r2.takeWhile (· != ')')
      if u.isEmpty then none
      else
        match r2.drop u.length with
        | ')' :: rem => some (t, u, rem)
        | _ => none
    | _ => none

/-- `re.sub(link_pattern, replace_md_link, content)`: scan left to right,
replace each non-overlapping match, continue after it (fuelled by the
input length; each step consumes at least one character). -/
def subLinksF : Nat → List Char → List Char
  | 0, s => s
  | _ + 1, [] => []
  | f + 1, c :: rest =>
    if c = '[' then
      match tryLink rest with
      | some (t, u, rem) => (replace_md_link ⟨t⟩ ⟨u⟩).data ++ subLinksF f rem
      | none => c :: subLinksF f rest
    else c :: subLinksF f rest

/-- `process_internal_links` from `generate_pdf.py` (the `current_file`
parameter is unused in the source as well). -/
def process_internal_links (content : String) (current_file : String) : String :=
  ⟨subLinksF content.data.length content.data⟩

/-- The effective `replacements` table of `clean_unicode_characters`
(generate_pdf.py lines 161-177), exactly as Python parses that dict
literal.  Two quirks of the source are preserved faithfully:
* the two `Replace left/right single quote` lines each begin with three
  consecutive single-quote characters, which Python reads as one
  triple-quoted string, so the fifth key is the 49-character ASCII text
  standing between them (colon, space, a quoted single quote, comma,
  spaces, the hash comment text, a newline and the next line's
  12-space indentation) and its value is a single-quote character;
* the two double-quote entries have the identical one-character key, so
  the dict keeps a single entry mapping a double quote to itself. -/
def replacements : List (String × String) :=
  [("‚àô", "‚Ä¢"),
   ("‚Ä¶", "..."),
   ("‚Äì", "--"),
   ("‚Äî", "---"),
   (": \x22\x27\x22,   \x23 Replace left single quote\n            ", "\x27"),
   ("\x22", "\x22"),
   ("‚Ä†", "+"),
   ("‚Ä°", "++"),
   ("¬ß", "Section"),
   ("¬∂", "Para"),
   ("¬©", "(c)"),
   ("¬Æ", "(R)"),
   ("‚Ñ¢", "(TM)")]

/-- `clean_unicode_characters` from `generate_pdf.py`: apply each table
entry in turn with Python `str.replace`. -/
def clean_unicode_characters (content : String) : String :=
  replacements.foldl (fun acc pr => strReplace acc pr.1 pr.2) content

/-- `add_section_header` from `generate_pdf.py`. -/
def add_section_header (file_path content : String) : String :=
  if file_path == "README.md" then content
  else if strStarts file_path "solutions/" then
    let parts := splitSlashStr file_path
    if 4 ≤ parts.length then
      let section_type := asciiTitle (strReplace (parts.getD 1 "") "_" " ")
      let problem_name := asciiTitle (strReplace (parts.getD 2 "") "_" " ")
      let section_id :=
        asciiLower (strReplace (parts.getD 1 "") "_" "-" ++ "-" ++
          strReplace (parts.getD 2 "") "_" "-")
      "\n\n\x23 " ++ section_type ++ ": " ++ problem_name ++ " \x7b\x23" ++
        section_id ++ "\x7d\n\n" ++ content
    else
      "\n\n\x23 " ++ dirnameStr file_path ++ "\n\n" ++ content
  else
    let filename := strReplace (basenameStr file_path) ".md" ""
    if strStarts filename "README-" then
      "\n\n\x23 System Design Primer (" ++ strReplace filename "README-" "" ++
        ")\n\n" ++ content
    else
      "\n\n\x23 " ++ filename ++ "\n\n" ++ content

namespace MarkdownPDFGenerator

/-- `convert_notebook_to_markdown`: pandoc's stdout on success, the
two-line placeholder on a non-zero exit or an exception. -/
def convert_notebook_to_markdown (fs : RepoFS) (notebook_path : String) : String :=
  match fs.pandoc notebook_path with
  | some out => out
  | none => "\x23 " ++ notebook_path ++ "\n\n*Notebook conversion failed*\n\n"

/-- The per-file body of both loops of `combine_markdown_files`: load the
content (notebook conversion for `.ipynb`, raw text otherwise), then
Unicode cleanup, link rewriting and the section header. -/
def processFile (fs : RepoFS) (file_path : String) : String :=
  let content :=
    if strEnds file_path ".ipynb" then
      convert_notebook_to_markdown fs (fullPath fs file_path)
    else fs.contentF file_path
  add_section_header file_path
    (process_internal_links (clean_unicode_characters content) file_path)

/-- `combine_markdown_files`: the explicit-order pass (tracking the set of
processed files) followed by the pass over the remaining discovered
files. -/
def combine_markdown_files (fs : RepoFS) : String :=
  let all_files := find_all_markdown_files fs
  let pass1 :=
    file_order.foldl
      (fun acc fp =>
        if all_files.contains fp && fs.existsF fp then
          (acc.1 ++ processFile fs fp, acc.2 ++ [fp])
        else acc)
      (("", []) : String × List String)
  all_files.foldl
    (fun acc fp =>
      if !pass1.2.contains fp && fs.existsF fp then acc ++ processFile fs fp
      else acc)
    pass1.1

/-- External-world model for the PDF stage: presence and exit status of
wkhtmltopdf, and per-Chrome-candidate presence, exit status and the state
of the target PDF file right after that candidate's invocation.  `htmlOk`
models whether the pandoc HTML stage succeeded. -/
structure PdfEnv where
  wkPresent : Bool
  wkExit : Nat
  chromePresent : String → Bool
  chromeExit : String → Nat
  pdfExistsAfter : String → Bool
  pdfSizeAfter : String → Nat
  htmlOk : Bool

/-- `chrome_paths` from `generate_pdf_from_html`. -/
def chrome_paths : List String :=
  ["/Applications/Google Chrome.app/Contents/MacOS/Google Chrome",
   "/usr/bin/chromium-browser",
   "/usr/bin/google-chrome",
   "chromium",
   "google-chrome"]

/-- The Chrome fallback loop of `generate_pdf_from_html`: a missing binary
(`FileNotFoundError`) continues with the next candidate; a present
candidate is accepted iff its invocation exits 0 and a file exists at the
target PDF path afterwards (`Path(pdf_path).exists()` - the file's size is
never consulted). -/
def chromeLoop (env : PdfEnv) : List String → Bool
  | [] => false
  | c :: rest =>
    if env.chromePresent c then
      if env.chromeExit c == 0 && env.pdfExistsAfter c then true
      else chromeLoop env rest
    else chromeLoop env rest

/-- `generate_pdf_from_html`: wkhtmltopdf is accepted iff it is present and
exits 0 (a `FileNotFoundError` or a non-zero exit both fall through to the
Chrome loop). -/
def generate_pdf_from_html (env : PdfEnv) : Bool :=
  if env.wkPresent && env.wkExit == 0 then true
  else chromeLoop env chrome_paths

/-- `generate_pdf`: HTML stage first, then HTML to PDF. -/
def generate_pdf (env : PdfEnv) : Bool :=
  env.htmlOk && generate_pdf_from_html env

/-- The process exit status of `main` (0 on success, `sys.exit(1)` on a
failed PDF generation). -/
def mainExitCode (env : PdfEnv) : Nat := if generate_pdf env then 0 else 1

end MarkdownPDFGenerator

/-- Claim-side description (spec section 4.2.2): the Explicit Ordering List
entries that are in the Candidate File Set and exist on disk, in list
order. -/
def orderedPart (fs : RepoFS) : List String :=
  MarkdownPDFGenerator.file_order.filter
    (fun fp => (MarkdownPDFGenerator.find_all_markdown_files fs).contains fp
      && fs.existsF fp)

/-- Claim-side description: the remaining Candidate File Set entries, in
Candidate File Set (walk) order. -/
def remainingPart (fs : RepoFS) : List String :=
  (MarkdownPDFGenerator.find_all_markdown_files fs).filter
    (fun fp => !(orderedPart fs).contains fp)

/-- Concatenation of a list of strings, in order. -/
def concatAll (l : List String) : String := l.foldl (· ++ ·) ""

/-- Claim-side reading of `the filename minus the .md extension`: strip one
trailing `.md` (contrast with the source's `replace`, which removes every
occurrence). -/
def stripOneSuffix (s suf : String) : String :=
  if strEnds s suf then ⟨s.data.take (s.data.length - suf.data.length)⟩ else s

/-- A repository holding only a top-level `TRANSLATIONS.md`. -/
def fsC1 : RepoFS :=
  { repoPath := "/repo"
    walk := [("", "TRANSLATIONS.md")]
    contentF := fun _ => ""
    existsF := fun _ => true
    pandoc := fun _ => none }

/-- A second copy of the `TRANSLATIONS.md`-only repository. -/
def fsC2 : RepoFS :=
  { repoPath := "/repo"
    walk := [("", "TRANSLATIONS.md")]
    contentF := fun _ => ""
    existsF := fun _ => true
    pandoc := fun _ => none }

/-- A repository holding one ordinary extra Markdown file. -/
def fsC2w : RepoFS :=
  { repoPath := "/repo"
    walk := [("", "extra.md")]
    contentF := fun _ => ""
    existsF := fun _ => true
    pandoc := fun _ => none }

/-- A repository with a directory whose name merely contains `.github` as a
substring of a longer component. -/
def fsC6 : RepoFS :=
  { repoPath := "/repo"
    walk := [("", "README.md"), ("my.github.io", "notes.md")]
    contentF := fun _ => ""
    existsF := fun _ => true
    pandoc := fun _ => none }

/-- A repository with the top-level README plus one extra file, each
existing on disk. -/
def fsC3 : RepoFS :=
  { repoPath := "/repo"
    walk := [("", "README.md"), ("", "zz.md")]
    contentF := fun p => if p = "README.md" then "R" else "Z"
    existsF := fun p => decide (p = "README.md") || decide (p = "zz.md")
    pandoc := fun _ => none }

/-- A repository whose one notebook fails to convert (pandoc yields
nothing for every path). -/
def fsC8 : RepoFS :=
  { repoPath := "/repo"
    walk := [("", "README.md"),
             ("solutions/object_oriented_design/hash_table", "hash_map.ipynb")]
    contentF := fun _ => "hello"
    existsF := fun p => decide (p = "README.md") ||
      decide (p = "solutions/object_oriented_design/hash_table/hash_map.ipynb")
    pandoc := fun _ => none }

/-- A world where wkhtmltopdf is absent and the first present Chrome
candidate exits 0 and leaves an EMPTY file at the target path. -/
def envC5 : MarkdownPDFGenerator.PdfEnv :=
  { wkPresent := false
    wkExit := 1
    chromePresent := fun c => c == "/usr/bin/chromium-browser"
    chromeExit := fun _ => 0
    pdfExistsAfter := fun _ => true
    pdfSizeAfter := fun _ => 0
    htmlOk := true }

/-- A world where wkhtmltopdf is absent and the first Chrome candidate
succeeds with a non-empty file. -/
def envC5ok : MarkdownPDFGenerator.PdfEnv :=
  { wkPresent := false
    wkExit := 0
    chromePresent := fun c => c == "/Applications/Google Chrome.app/Contents/MacOS/Google Chrome"
    chromeExit := fun _ => 0
    pdfExistsAfter := fun _ => true
    pdfSizeAfter := fun _ => 70000
    htmlOk := true }

/-- A world where every PDF backend is absent. -/
def envC5none : MarkdownPDFGenerator.PdfEnv :=
  { wkPresent := false
    wkExit := 0
    chromePresent := fun _ => false
    chromeExit := fun _ => 1
    pdfExistsAfter := fun _ => false
    pdfSizeAfter := fun _ => 0
    htmlOk := true }

/-- The accidental fifth key of the `replacements` table (the text Python
reads between the two runs of three single quotes). -/
def quoteKey : String := ": \x22\x27\x22,   \x23 Replace left single quote\n            "

/-- An input on which the Unicode cleanup is not idempotent: the first
three characters of `quoteKey`, then `quoteKey` itself, then the rest of
`quoteKey`.  One application rewrites the embedded `quoteKey` occurrence
to a single quote, which reassembles `quoteKey` exactly; a second
application then rewrites the whole string to a single quote. -/
def c9Input : String := ⟨quoteKey.data.take 3 ++ quoteKey.data ++ quoteKey.data.drop 4⟩

end SDPrimer

open SDPrimer

set_option maxRecDepth 100000

theorem strMk_data (s : String) : (⟨s.data⟩ : String) = s := by
  cases s
  rfl

theorem strData_append (a b : String) : (a ++ b).data = a.data ++ b.data := by
  cases a
  cases b
  rfl

theorem strAppend_empty (s : String) : s ++ "" = s := by
  cases s
  show String.mk _ = _
  simp [String.append]

theorem empty_strAppend (s : String) : "" ++ s = s := by
  cases s
  show String.mk _ = _
  simp [String.append]

theorem strAppend_assoc (a b c : String) : a ++ b ++ c = a ++ (b ++ c) := by
  cases a
  cases b
  cases c
  show String.mk _ = String.mk _
  simp [String.append]

theorem hasPrefixB_ne_head (a b : Char) (p q s : List Char) (hab : (b == a) = false)
    (h : hasPrefixB (a :: p) s = true) : hasPrefixB (b :: q) s = false := by
  cases s with
  | nil => simp [hasPrefixB] at h
  | cons c cs =>
    simp only [hasPrefixB, Bool.and_eq_true, beq_iff_eq] at h
    obtain ⟨h1, -⟩ := h
    subst h1
    simp [hasPrefixB, hab]

theorem not_http_of_solutions (u : String) (h : strStarts u "solutions/" = true) :
    (strStarts u "http://" || strStarts u "https://") = false := by
  have hs : "solutions/".data = 's' :: "olutions/".data := rfl
  have h1 : "http://".data = 'h' :: "ttp://".data := rfl
  have h2 : "https://".data = 'h' :: "ttps://".data := rfl
  unfold strStarts at h ⊢
  rw [hs] at h
  rw [h1, h2, hasPrefixB_ne_head 's' 'h' _ _ _ (by decide) h,
    hasPrefixB_ne_head 's' 'h' _ _ _ (by decide) h]
  rfl

/-- C1 counterexample: on the `.md` path `TRANSLATIONS.md` the Lister's
report (a sorted walk filtered by its `is_non_english_file`) includes the
file while the Generator's discovery filter excludes it from the Candidate
File Set, so the two filters are not extensionally equal on `.md` paths. -/
theorem c1_filters_differ_on_translations :
    find_all_markdown_files fsC1 = ["TRANSLATIONS.md"]
    ∧ MarkdownPDFGenerator.find_all_markdown_files fsC1 = []
    ∧ strEnds "TRANSLATIONS.md" ".md" = true
    ∧ is_non_english_file "TRANSLATIONS.md" = false
    ∧ MarkdownPDFGenerator.is_non_english_file "TRANSLATIONS.md" = true := by
  refine ⟨by decide, by decide, by decide, by decide, by decide⟩

/-- C1 amended: the Lister's filter and the Generator's filter agree on
every `.md` path that does not contain `TRANSLATIONS.md` as a substring
(the Generator's `excluded_files` list carries the extra
`TRANSLATIONS.md` marker, the sole textual difference between the two
filters). -/
theorem c1_filters_agree (p : String) (hmd : strEnds p ".md" = true)
    (ht : strContains p "TRANSLATIONS.md" = false) :
    is_non_english_file p = MarkdownPDFGenerator.is_non_english_file p := by
  simp [is_non_english_file, MarkdownPDFGenerator.is_non_english_file,
    generated_files, MarkdownPDFGenerator.excluded_files, non_english_patterns, ht]

theorem c1_filters_agree_witness :
    strEnds "docs/x.md" ".md" = true
    ∧ strContains "docs/x.md" "TRANSLATIONS.md" = false
    ∧ is_non_english_file "docs/x.md" = MarkdownPDFGenerator.is_non_english_file "docs/x.md" :=
  ⟨by decide, by decide, c1_filters_agree "docs/x.md" (by decide) (by decide)⟩

/-- C2 counterexample: `TRANSLATIONS.md` ends in `.md`, sits at the top of
the repository (not under any `.github` directory) and contains none of
the five non-English patterns, yet the Generator's filter excludes it, so
it never reaches the Candidate File Set. -/
theorem c2_translations_excluded :
    non_english_patterns.all (fun pat => !strContains "TRANSLATIONS.md" pat) = true
    ∧ strEnds "TRANSLATIONS.md" ".md" = true
    ∧ MarkdownPDFGenerator.is_non_english_file "TRANSLATIONS.md" = true
    ∧ MarkdownPDFGenerator.find_all_markdown_files fsC2 = [] := by
  refine ⟨by decide, by decide, by decide, by decide⟩

/-- C2 amended: a path containing one of the five non-English patterns is
always excluded by the Generator's filter; a path containing neither a
non-English pattern nor one of the three excluded/generated markers is
accepted by the filter, and if such a file is walked in a directory whose
path does not contain `.github` and has a `.md`/`.ipynb` name it lands in
the Candidate File Set. -/
theorem c2_filter_characterization :
    (∀ p pat, pat ∈ non_english_patterns → strContains p pat = true →
      MarkdownPDFGenerator.is_non_english_file p = true)
    ∧ (∀ p, non_english_patterns.all (fun pat => !strContains p pat) = true →
        MarkdownPDFGenerator.excluded_files.all (fun g => !strContains p g) = true →
        MarkdownPDFGenerator.is_non_english_file p = false)
    ∧ (∀ fs d f, (d, f) ∈ fs.walk →
        strContains (rootStr fs d) ".github" = false →
        (strEnds f ".md" || strEnds f ".ipynb") = true →
        MarkdownPDFGenerator.is_non_english_file (relPath d f) = false →
        relPath d f ∈ MarkdownPDFGenerator.find_all_markdown_files fs) := by
  refine ⟨?_, ?_, ?_⟩
  · intro p pat hmem hc
    simp only [MarkdownPDFGenerator.is_non_english_file, Bool.or_eq_true, List.any_eq_true]
    exact Or.inl ⟨pat, hmem, hc⟩
  · intro p h1 h2
    simp only [List.all_eq_true, Bool.not_eq_true'] at h1 h2
    simp only [MarkdownPDFGenerator.is_non_english_file, Bool.or_eq_false_iff,
      List.any_eq_false]
    exact ⟨fun pat hm => by simp [h1 pat hm], fun g hm => by simp [h2 g hm]⟩
  · intro fs d f hmem hgh hext hfil
    unfold MarkdownPDFGenerator.find_all_markdown_files
    refine List.mem_filterMap.mpr ⟨(d, f), hmem, ?_⟩
    simp [hgh, hext, hfil]

theorem c2_filter_characterization_witness :
    MarkdownPDFGenerator.is_non_english_file "docs/README-ja.md" = true
    ∧ MarkdownPDFGenerator.is_non_english_file "notes.md" = false
    ∧ "extra.md" ∈ MarkdownPDFGenerator.find_all_markdown_files fsC2w :=
  ⟨c2_filter_characterization.1 "docs/README-ja.md" "README-ja.md" (by decide) (by decide),
   c2_filter_characterization.2.1 "notes.md" (by decide) (by decide),
   c2_filter_characterization.2.2 fsC2w "" "extra.md" (by decide) (by decide)
     (by decide) (by decide)⟩

theorem chromeLoop_true_iff (env : MarkdownPDFGenerator.PdfEnv) :
    ∀ l : List String, MarkdownPDFGenerator.chromeLoop env l = true ↔
      ∃ c, c ∈ l ∧ env.chromePresent c = true ∧ env.chromeExit c = 0
        ∧ env.pdfExistsAfter c = true := by
  intro l
  induction l with
  | nil => simp [MarkdownPDFGenerator.chromeLoop]
  | cons c rest ih =>
    cases hp : env.chromePresent c with
    | false =>
      simp only [MarkdownPDFGenerator.chromeLoop, hp, Bool.false_eq_true, if_false, ih]
      constructor
      · rintro ⟨c', hm, h⟩
        exact ⟨c', List.mem_cons_of_mem _ hm, h⟩
      · rintro ⟨c', hm, hpr, h⟩
        rcases List.mem_cons.mp hm with heq | hm'
        · rw [heq] at hpr
          rw [hpr] at hp
          cases hp
        · exact ⟨c', hm', hpr, h⟩
    | true =>
      cases hacc : env.chromeExit c == 0 && env.pdfExistsAfter c with
      | true =>
        rw [Bool.and_eq_true, beq_iff_eq] at hacc
        simp only [MarkdownPDFGenerator.chromeLoop, hp, if_true, hacc.1, hacc.2]
        simp only [beq_self_eq_true, Bool.and_self, if_true, true_iff]
        exact ⟨c, List.mem_cons_self c rest, hp, hacc.1, hacc.2⟩
      | false =>
        simp only [MarkdownPDFGenerator.chromeLoop, hp, if_true, hacc,
          Bool.false_eq_true, if_false, ih]
        constructor
        · rintro ⟨c', hm, h⟩
          exact ⟨c', List.mem_cons_of_mem _ hm, h⟩
        · rintro ⟨c', hm, hpr, hex, hpdf⟩
          rcases List.mem_cons.mp hm with heq | hm'
          · subst heq
            rw [hex, hpdf] at hacc
            simp at hacc
          · exact ⟨c', hm', hpr, hex, hpdf⟩

/-- C5 counterexample: with wkhtmltopdf absent and the sole present Chrome
candidate exiting 0 while leaving an EMPTY file at the target path, the
code still accepts the candidate and reports success - the code only tests
`Path(pdf_path).exists()`, never that the file is non-empty, so the
claimed `exits zero and produces a non-empty file` acceptance condition is
not what the code implements. -/
theorem c5_empty_file_accepted :
    envC5.wkPresent = false
    ∧ envC5.chromePresent "/usr/bin/chromium-browser" = true
    ∧ envC5.chromeExit "/usr/bin/chromium-browser" = 0
    ∧ envC5.pdfExistsAfter "/usr/bin/chromium-browser" = true
    ∧ envC5.pdfSizeAfter "/usr/bin/chromium-browser" = 0
    ∧ MarkdownPDFGenerator.generate_pdf_from_html envC5 = true
    ∧ MarkdownPDFGenerator.mainExitCode envC5 = 0 := by
  refine ⟨rfl, by decide, rfl, rfl, rfl, by decide, by decide⟩

/-- C5 amended: a headless-browser candidate is accepted (and the
remaining candidates are skipped) iff its invocation exits zero and a file
EXISTS at the target PDF path (its size is never consulted); when the
primary backend is absent or exits non-zero the fallback candidates are
tried in order; and when every backend is absent or fails, PDF generation
returns failure and the run exits with status 1. -/
theorem c5_fallback_chain :
    (∀ (env : MarkdownPDFGenerator.PdfEnv) (c : String) (rest : List String),
      env.chromePresent c = true → env.chromeExit c = 0 → env.pdfExistsAfter c = true →
      MarkdownPDFGenerator.chromeLoop env (c :: rest) = true)
    ∧ (∀ (env : MarkdownPDFGenerator.PdfEnv) (c : String) (rest : List String),
      env.chromePresent c = false ∨ env.chromeExit c ≠ 0 ∨ env.pdfExistsAfter c = false →
      MarkdownPDFGenerator.chromeLoop env (c :: rest) = MarkdownPDFGenerator.chromeLoop env rest)
    ∧ (∀ env : MarkdownPDFGenerator.PdfEnv, env.wkPresent = true → env.wkExit = 0 →
      MarkdownPDFGenerator.generate_pdf_from_html env = true)
    ∧ (∀ env : MarkdownPDFGenerator.PdfEnv, env.wkPresent = false ∨ env.wkExit ≠ 0 →
      MarkdownPDFGenerator.generate_pdf_from_html env
        = MarkdownPDFGenerator.chromeLoop env MarkdownPDFGenerator.chrome_paths)
    ∧ (∀ env : MarkdownPDFGenerator.PdfEnv,
      (MarkdownPDFGenerator.chromeLoop env MarkdownPDFGenerator.chrome_paths = true ↔
        ∃ c, c ∈ MarkdownPDFGenerator.chrome_paths ∧ env.chromePresent c = true
          ∧ env.chromeExit c = 0 ∧ env.pdfExistsAfter c = true))
    ∧ (∀ env : MarkdownPDFGenerator.PdfEnv, env.wkPresent = false ∨ env.wkExit ≠ 0 →
      (∀ c, c ∈ MarkdownPDFGenerator.chrome_paths →
        env.chromePresent c = false ∨ env.chromeExit c ≠ 0 ∨ env.pdfExistsAfter c = false) →
      MarkdownPDFGenerator.generate_pdf_from_html env = false
        ∧ MarkdownPDFGenerator.mainExitCode env = 1) := by
  have hwk : ∀ env : MarkdownPDFGenerator.PdfEnv, env.wkPresent = false ∨ env.wkExit ≠ 0 →
      MarkdownPDFGenerator.generate_pdf_from_html env
        = MarkdownPDFGenerator.chromeLoop env MarkdownPDFGenerator.chrome_paths := by
    intro env h
    rcases h with h | h
    · simp [MarkdownPDFGenerator.generate_pdf_from_html, h]
    · simp [MarkdownPDFGenerator.generate_pdf_from_html, h]
  have hskip : ∀ (env : MarkdownPDFGenerator.PdfEnv) (c : String) (rest : List String),
      env.chromePresent c = false ∨ env.chromeExit c ≠ 0 ∨ env.pdfExistsAfter c = false →
      MarkdownPDFGenerator.chromeLoop env (c :: rest)
        = MarkdownPDFGenerator.chromeLoop env rest := by
    intro env c rest h
    rcases h with h | h | h
    · simp [MarkdownPDFGenerator.chromeLoop, h]
    · simp [MarkdownPDFGenerator.chromeLoop, h]
    · simp [MarkdownPDFGenerator.chromeLoop, h]
  refine ⟨?_, hskip, ?_, hwk, fun env => chromeLoop_true_iff env _, ?_⟩
  · intro env c rest hp he hx
    simp [MarkdownPDFGenerator.chromeLoop, hp, he, hx]
  · intro env h1 h2
    simp [MarkdownPDFGenerator.generate_pdf_from_html, h1, h2]
  · intro env hw hall
    have hloop : MarkdownPDFGenerator.chromeLoop env MarkdownPDFGenerator.chrome_paths = false := by
      rw [Bool.eq_false_iff]
      intro htrue
      rcases (chromeLoop_true_iff env _).mp htrue with ⟨c, hm, hpr, hex, hpdf⟩
      rcases hall c hm with h | h | h
      · rw [hpr] at h
        cases h
      · exact h hex
      · rw [hpdf] at h
        cases h
    have hgen : MarkdownPDFGenerator.generate_pdf_from_html env = false :=
      (hwk env hw).trans hloop
    refine ⟨hgen, ?_⟩
    simp [MarkdownPDFGenerator.mainExitCode, MarkdownPDFGenerator.generate_pdf, hgen]

theorem c5_fallback_chain_witness :
    MarkdownPDFGenerator.chromeLoop envC5ok MarkdownPDFGenerator.chrome_paths = true
    ∧ MarkdownPDFGenerator.generate_pdf_from_html envC5ok
        = MarkdownPDFGenerator.chromeLoop envC5ok MarkdownPDFGenerator.chrome_paths
    ∧ MarkdownPDFGenerator.generate_pdf_from_html envC5none = false
    ∧ MarkdownPDFGenerator.mainExitCode envC5none = 1 :=
  ⟨c5_fallback_chain.1 envC5ok
      "/Applications/Google Chrome.app/Contents/MacOS/Google Chrome"
      ["/usr/bin/chromium-browser", "/usr/bin/google-chrome", "chromium", "google-chrome"]
      (by decide) (by decide) (by decide),
   c5_fallback_chain.2.2.2.1 envC5ok (Or.inl (by decide)),
   (c5_fallback_chain.2.2.2.2.2 envC5none (Or.inl (by decide))
     (fun _ _ => Or.inl rfl)).1,
   (c5_fallback_chain.2.2.2.2.2 envC5none (Or.inl (by decide))
     (fun _ _ => Or.inl rfl)).2⟩

theorem gen_entry_some (fs : RepoFS) (d f p : String) :
    (if strContains (rootStr fs d) ".github" then none
     else if (strEnds f ".md" || strEnds f ".ipynb")
              && !MarkdownPDFGenerator.is_non_english_file (relPath d f) then
       some (relPath d f)
     else none) = some p
    ↔ strContains (rootStr fs d) ".github" = false
      ∧ (strEnds f ".md" || strEnds f ".ipynb") = true
      ∧ MarkdownPDFGenerator.is_non_english_file (relPath d f) = false
      ∧ relPath d f = p := by
  cases h1 : strContains (rootStr fs d) ".github"
  · cases h2 : strEnds f ".md" || strEnds f ".ipynb"
    · simp [h2]
    · cases h3 : MarkdownPDFGenerator.is_non_english_file (relPath d f)
      · simp [h2, h3, eq_comm]
      · simp [h2, h3]
  · simp [h1]

theorem lister_entry_some (fs : RepoFS) (d f p : String) :
    (if strContains (rootStr fs d) ".github" then none
     else if strEnds f ".md" && !is_non_english_file (relPath d f) then
       some (relPath d f)
     else none) = some p
    ↔ strContains (rootStr fs d) ".github" = false
      ∧ strEnds f ".md" = true
      ∧ is_non_english_file (relPath d f) = false
      ∧ relPath d f = p := by
  cases h1 : strContains (rootStr fs d) ".github"
  · cases h2 : strEnds f ".md"
    · simp [h2]
    · cases h3 : is_non_english_file (relPath d f)
      · simp [h2, h3, eq_comm]
      · simp [h2, h3]
  · simp [h1]

theorem mem_insertSorted (x y : String) :
    ∀ l : List String, y ∈ insertSorted x l ↔ y = x ∨ y ∈ l := by
  intro l
  induction l with
  | nil => simp [insertSorted]
  | cons z zs ih =>
    cases h : strLtB z x
    · simp [insertSorted, h]
    · simp only [insertSorted, h, if_true, List.mem_cons, ih]
      tauto

theorem mem_sortStrs (y : String) : ∀ l : List String, y ∈ sortStrs l ↔ y ∈ l := by
  intro l
  induction l with
  | nil => simp [sortStrs]
  | cons x xs ih => simp [sortStrs, mem_insertSorted, ih]

/-- C6 counterexample: the directory `my.github.io` is a single path
component (not a `.github` component), its file `notes.md` passes every
other filter, yet both the Generator's and the Lister's walks exclude it -
the code tests `'.github' in root`, a SUBSTRING test on the walked
directory path, not component equality. -/
theorem c6_substring_excludes :
    splitSlashStr "my.github.io" = ["my.github.io"]
    ∧ ".github" ∉ splitSlashStr (relPath "my.github.io" "notes.md")
    ∧ strEnds "notes.md" ".md" = true
    ∧ is_non_english_file (relPath "my.github.io" "notes.md") = false
    ∧ MarkdownPDFGenerator.is_non_english_file (relPath "my.github.io" "notes.md") = false
    ∧ ("my.github.io", "notes.md") ∈ fsC6.walk
    ∧ relPath "my.github.io" "notes.md" ∉ MarkdownPDFGenerator.find_all_markdown_files fsC6
    ∧ relPath "my.github.io" "notes.md" ∉ find_all_markdown_files fsC6
    ∧ strContains (rootStr fsC6 "my.github.io") ".github" = true := by
  refine ⟨by decide, by decide, by decide, by decide, by decide, by decide, by decide,
    by decide, by decide⟩

/-- C6 amended: in both components a walked file reaches the candidate
list iff the walked directory path (the repository root joined with the
relative directory) does NOT contain `.github` as a substring and the
file passes the extension and non-English filters; so a component such as
`my.github.io` (or a repository root containing `.github`) is also
excluded, not only literal `.github` components. -/
theorem c6_github_rule_is_substring :
    (∀ (fs : RepoFS) (p : String),
      p ∈ MarkdownPDFGenerator.find_all_markdown_files fs ↔
        ∃ d f, (d, f) ∈ fs.walk ∧ strContains (rootStr fs d) ".github" = false
          ∧ (strEnds f ".md" || strEnds f ".ipynb") = true
          ∧ MarkdownPDFGenerator.is_non_english_file (relPath d f) = false
          ∧ relPath d f = p)
    ∧ (∀ (fs : RepoFS) (p : String),
      p ∈ find_all_markdown_files fs ↔
        ∃ d f, (d, f) ∈ fs.walk ∧ strContains (rootStr fs d) ".github" = false
          ∧ strEnds f ".md" = true
          ∧ is_non_english_file (relPath d f) = false
          ∧ relPath d f = p) := by
  constructor
  · intro fs p
    unfold MarkdownPDFGenerator.find_all_markdown_files
    rw [List.mem_filterMap]
    constructor
    · rintro ⟨⟨d, fl⟩, hm, he⟩
      rw [gen_entry_some] at he
      exact ⟨d, fl, hm, he.1, he.2.1, he.2.2.1, he.2.2.2⟩
    · rintro ⟨d, fl, hm, h1, h2, h3, h4⟩
      exact ⟨(d, fl), hm, (gen_entry_some fs d fl p).mpr ⟨h1, h2, h3, h4⟩⟩
  · intro fs p
    unfold find_all_markdown_files
    rw [mem_sortStrs, List.mem_filterMap]
    constructor
    · rintro ⟨⟨d, fl⟩, hm, he⟩
      rw [lister_entry_some] at he
      exact ⟨d, fl, hm, he.1, he.2.1, he.2.2.1, he.2.2.2⟩
    · rintro ⟨d, fl, hm, h1, h2, h3, h4⟩
      exact ⟨(d, fl), hm, (lister_entry_some fs d fl p).mpr ⟨h1, h2, h3, h4⟩⟩

theorem concatAll_go (l : List String) : ∀ a : String, l.foldl (· ++ ·) a = a ++ concatAll l := by
  induction l with
  | nil =>
    intro a
    simp [concatAll, List.foldl, strAppend_empty]
  | cons x xs ih =>
    intro a
    show xs.foldl (· ++ ·) (a ++ x) = a ++ concatAll (x :: xs)
    rw [ih (a ++ x)]
    have hc : concatAll (x :: xs) = x ++ concatAll xs := by
      show xs.foldl (· ++ ·) ("" ++ x) = _
      rw [ih ("" ++ x), empty_strAppend]
    rw [hc, strAppend_assoc]

theorem concatAll_cons (x : String) (l : List String) :
    concatAll (x :: l) = x ++ concatAll l := by
  show l.foldl (· ++ ·) ("" ++ x) = _
  rw [concatAll_go l ("" ++ x), empty_strAppend]

theorem concatAll_append (a b : List String) :
    concatAll (a ++ b) = concatAll a ++ concatAll b := by
  show (a ++ b).foldl (· ++ ·) "" = _
  rw [List.foldl_append, concatAll_go b]
  rfl

theorem foldl_pass1 (fs : RepoFS) (allf : List String) :
    ∀ (l : List String) (acc : String) (pr : List String),
      l.foldl
        (fun a fp =>
          if allf.contains fp && fs.existsF fp then
            (a.1 ++ MarkdownPDFGenerator.processFile fs fp, a.2 ++ [fp])
          else a)
        (acc, pr)
      = (acc ++ concatAll ((l.filter (fun fp => allf.contains fp && fs.existsF fp)).map
            (MarkdownPDFGenerator.processFile fs)),
         pr ++ l.filter (fun fp => allf.contains fp && fs.existsF fp)) := by
  intro l
  induction l with
  | nil =>
    intro acc pr
    simp [concatAll, strAppend_empty]
  | cons x xs ih =>
    intro acc pr
    rw [List.foldl_cons]
    rcases Bool.eq_false_or_eq_true (allf.contains x && fs.existsF x) with h | h
    · rw [if_pos h, ih _ _, List.filter_cons_of_pos (by exact h)]
      rw [List.map_cons, concatAll_cons, ← strAppend_assoc, List.append_assoc,
        List.singleton_append]
    · rw [if_neg (by rw [h]; exact Bool.false_ne_true), ih acc pr,
        List.filter_cons_of_neg
          (by show ¬(allf.contains x && fs.existsF x) = true; rw [h]; exact Bool.false_ne_true)]

theorem foldl_pass2 (fs : RepoFS) (pr : List String) :
    ∀ (l : List String) (acc : String), (∀ fp ∈ l, fs.existsF fp = true) →
      l.foldl
        (fun a fp =>
          if !pr.contains fp && fs.existsF fp then
            a ++ MarkdownPDFGenerator.processFile fs fp
          else a)
        acc
      = acc ++ concatAll ((l.filter (fun fp => !pr.contains fp)).map
          (MarkdownPDFGenerator.processFile fs)) := by
  intro l
  induction l with
  | nil =>
    intro acc _
    simp [concatAll, strAppend_empty]
  | cons x xs ih =>
    intro acc hex
    have hx : fs.existsF x = true := hex x (List.mem_cons_self x xs)
    have hxs : ∀ fp ∈ xs, fs.existsF fp = true :=
      fun fp hm => hex fp (List.mem_cons_of_mem x hm)
    rw [List.foldl_cons]
    rcases Bool.eq_false_or_eq_true (pr.contains x) with hc | hc
    · rw [if_neg (by rw [hc]; exact Bool.false_ne_true), ih acc hxs,
        List.filter_cons_of_neg
          (by show ¬(!pr.contains x) = true; rw [hc]; exact Bool.false_ne_true)]
    · rw [if_pos (by rw [hc, hx]; rfl), ih _ hxs,
        List.filter_cons_of_pos (by show (!pr.contains x) = true; rw [hc]; rfl)]
      rw [List.map_cons, concatAll_cons, ← strAppend_assoc]

theorem exists_of_mem_find_all (fs : RepoFS)
    (hw : fs.walk.all (fun df => fs.existsF (relPath df.1 df.2)) = true)
    (fp : String) (h : fp ∈ MarkdownPDFGenerator.find_all_markdown_files fs) :
    fs.existsF fp = true := by
  unfold MarkdownPDFGenerator.find_all_markdown_files at h
  rcases List.mem_filterMap.mp h with ⟨⟨d, fl⟩, hm, he⟩
  rw [gen_entry_some] at he
  rw [← he.2.2.2]
  exact List.all_eq_true.mp hw ⟨d, fl⟩ hm

/-- C3: for every repository state in which every walked file exists on
disk, the Combined Markdown Document is exactly the concatenation of the
processed contents of the Explicit Ordering List entries that are in the
Candidate File Set and exist (in the list's order), followed by the
remaining Candidate File Set entries (in walk order); and an ordering-list
entry absent from disk contributes nothing to either part (the model is a
total function, so no error is raised). -/
theorem c3_combine_order (fs : RepoFS)
    (hw : fs.walk.all (fun df => fs.existsF (relPath df.1 df.2)) = true) :
    MarkdownPDFGenerator.combine_markdown_files fs
      = concatAll ((orderedPart fs ++ remainingPart fs).map
          (MarkdownPDFGenerator.processFile fs))
    ∧ ∀ fp ∈ MarkdownPDFGenerator.file_order, fs.existsF fp = false →
        fp ∉ orderedPart fs ++ remainingPart fs := by
  have hex : ∀ fp ∈ MarkdownPDFGenerator.find_all_markdown_files fs, fs.existsF fp = true :=
    fun fp h => exists_of_mem_find_all fs hw fp h
  constructor
  · simp only [MarkdownPDFGenerator.combine_markdown_files]
    rw [foldl_pass1 fs (MarkdownPDFGenerator.find_all_markdown_files fs)
      MarkdownPDFGenerator.file_order "" []]
    simp only [empty_strAppend, List.nil_append]
    rw [foldl_pass2 fs _ (MarkdownPDFGenerator.find_all_markdown_files fs) _ hex]
    rw [List.map_append, concatAll_append]
    rfl
  · intro fp hmem hgone
    rw [List.mem_append]
    rintro (h | h)
    · rcases List.mem_filter.mp h with ⟨-, hcond⟩
      rw [Bool.and_eq_true] at hcond
      rw [hcond.2] at hgone
      cases hgone
    · rcases List.mem_filter.mp h with ⟨hin, -⟩
      rw [hex fp hin] at hgone
      cases hgone

theorem c3_combine_order_witness :
    fsC3.walk.all (fun df => fsC3.existsF (relPath df.1 df.2)) = true
    ∧ (MarkdownPDFGenerator.combine_markdown_files fsC3
        = concatAll ((orderedPart fsC3 ++ remainingPart fsC3).map
            (MarkdownPDFGenerator.processFile fsC3))
      ∧ ∀ fp ∈ MarkdownPDFGenerator.file_order, fsC3.existsF fp = false →
          fp ∉ orderedPart fsC3 ++ remainingPart fsC3) :=
  ⟨by decide, c3_combine_order fsC3 (by decide)⟩

theorem hasPrefixB_mem (p : List Char) :
    ∀ s : List Char, hasPrefixB p s = true → ∀ c ∈ p, c ∈ s := by
  induction p with
  | nil =>
    intro s _ c hc
    cases hc
  | cons a ps ih =>
    intro s hp c hc
    cases s with
    | nil => simp [hasPrefixB] at hp
    | cons b t =>
      simp only [hasPrefixB, Bool.and_eq_true, beq_iff_eq] at hp
      rcases List.mem_cons.mp hc with h | h
      · rw [h, hp.1]
        exact List.mem_cons_self b t
      · exact List.mem_cons_of_mem b (ih t hp.2 c h)

theorem replaceAllF_id_of_missing (p r : List Char) (c : Char) (hc : c ∈ p) :
    ∀ (n : Nat) (s : List Char), c ∉ s → replaceAllF p r n s = s := by
  intro n
  induction n with
  | zero =>
    intro s _
    rfl
  | succ m ih =>
    intro s hs
    cases s with
    | nil => rfl
    | cons d t =>
      rw [replaceAllF, if_neg, ih t (fun h => hs (List.mem_cons_of_mem d h))]
      intro hcond
      rw [Bool.and_eq_true] at hcond
      exact hs (hasPrefixB_mem p (d :: t) hcond.1 c hc)

theorem replaceAll_id_of_missing (p r s : List Char) (c : Char) (hc : c ∈ p)
    (hs : c ∉ s) : replaceAll p r s = s :=
  replaceAllF_id_of_missing p r c hc s.length s hs

theorem strReplace_id_of_missing (s p r : String) (c : Char) (hc : c ∈ p.data)
    (hs : c ∉ s.data) : strReplace s p r = s := by
  unfold strReplace
  rw [replaceAll_id_of_missing p.data r.data s.data c hc hs, strMk_data]

theorem hasPrefixB_append_drop (p : List Char) :
    ∀ s : List Char, hasPrefixB p s = true → p ++ s.drop p.length = s := by
  induction p with
  | nil =>
    intro s _
    rfl
  | cons a ps ih =>
    intro s hp
    cases s with
    | nil => simp [hasPrefixB] at hp
    | cons b t =>
      simp only [hasPrefixB, Bool.and_eq_true, beq_iff_eq] at hp
      simp only [List.length_cons, List.drop_succ_cons, List.cons_append, hp.1]
      rw [ih t hp.2]

theorem replaceAllF_self (p : List Char) :
    ∀ (n : Nat) (s : List Char), s.length ≤ n → replaceAllF p p n s = s := by
  intro n
  induction n with
  | zero =>
    intro s _
    rfl
  | succ m ih =>
    intro s hlen
    cases s with
    | nil => rfl
    | cons d t =>
      rw [replaceAllF]
      by_cases hcond : (hasPrefixB p (d :: t) && !p.isEmpty) = true
      · rw [if_pos hcond]
        rw [Bool.and_eq_true] at hcond
        have hne : p ≠ [] := by
          intro hp
          rw [hp] at hcond
          simp at hcond
        have hdrop : ((d :: t).drop p.length).length ≤ m := by
          have h1 : 1 ≤ p.length := by
            cases p with
            | nil => exact absurd rfl hne
            | cons _ _ => simp
          have h2 : ((d :: t).drop p.length).length = (d :: t).length - p.length :=
            List.length_drop _ _
          simp only [List.length_cons] at hlen h2
          omega
        rw [ih _ hdrop, hasPrefixB_append_drop p (d :: t) hcond.1]
      · rw [if_neg hcond, ih t (by simp only [List.length_cons] at hlen; omega)]

theorem strReplace_self (s p : String) : strReplace s p p = s := by
  unfold strReplace replaceAll
  rw [replaceAllF_self p.data s.data.length s.data (Nat.le_refl _), strMk_data]

theorem not_mem_of_ascii (s : List Char) (hA : ∀ c ∈ s, c.toNat < 128) (a : Char)
    (ha : 128 ≤ a.toNat) : a ∉ s := by
  intro hmem
  have := hA a hmem
  omega

theorem clean_unicode_id (s : String) (hA : ∀ c ∈ s.data, c.toNat < 128)
    (hq : '\x22' ∉ s.data) : clean_unicode_characters s = s := by
  simp only [clean_unicode_characters, replacements, List.foldl]
  rw [strReplace_id_of_missing s _ _ '‚' (by decide)
    (not_mem_of_ascii s.data hA _ (by decide))]
  rw [strReplace_id_of_missing s _ _ '‚' (by decide)
    (not_mem_of_ascii s.data hA _ (by decide))]
  rw [strReplace_id_of_missing s _ _ '‚' (by decide)
    (not_mem_of_ascii s.data hA _ (by decide))]
  rw [strReplace_id_of_missing s _ _ '‚' (by decide)
    (not_mem_of_ascii s.data hA _ (by decide))]
  rw [strReplace_id_of_missing s _ _ '\x22' (by decide) hq]
  rw [strReplace_self]
  rw [strReplace_id_of_missing s _ _ '‚' (by decide)
    (not_mem_of_ascii s.data hA _ (by decide))]
  rw [strReplace_id_of_missing s _ _ '‚' (by decide)
    (not_mem_of_ascii s.data hA _ (by decide))]
  rw [strReplace_id_of_missing s _ _ '¬' (by decide)
    (not_mem_of_ascii s.data hA _ (by decide))]
  rw [strReplace_id_of_missing s _ _ '¬' (by decide)
    (not_mem_of_ascii s.data hA _ (by decide))]
  rw [strReplace_id_of_missing s _ _ '¬' (by decide)
    (not_mem_of_ascii s.data hA _ (by decide))]
  rw [strReplace_id_of_missing s _ _ '¬' (by decide)
    (not_mem_of_ascii s.data hA _ (by decide))]
  rw [strReplace_id_of_missing s _ _ '‚' (by decide)
    (not_mem_of_ascii s.data hA _ (by decide))]

theorem subLinksF_id : ∀ (n : Nat) (s : List Char), '[' ∉ s → subLinksF n s = s := by
  intro n
  induction n with
  | zero =>
    intro s _
    rfl
  | succ m ih =>
    intro s hs
    cases s with
    | nil => rfl
    | cons c t =>
      rw [subLinksF, if_neg, ih t (fun h => hs (List.mem_cons_of_mem c h))]
      intro hc
      rw [hc] at hs
      exact hs (List.mem_cons_self _ _)

theorem process_internal_links_id (s cf : String) (hs : '[' ∉ s.data) :
    process_internal_links s cf = s := by
  unfold process_internal_links
  rw [subLinksF_id s.data.length s.data hs, strMk_data]

/-- C8 counterexample: a failing notebook's contribution to the Combined
Markdown Document is NOT exactly the two-line placeholder: the standard
section header of the file (here the `Object Oriented Design: Hash Table`
header with its anchor) is prepended to it, as for every other processed
file. -/
theorem c8_contribution_not_bare_placeholder :
    MarkdownPDFGenerator.processFile fsC8
        "solutions/object_oriented_design/hash_table/hash_map.ipynb"
      = "\n\n\x23 Object Oriented Design: Hash Table \x7b\x23object-oriented-design-hash-table\x7d\n\n\x23 /repo/solutions/object_oriented_design/hash_table/hash_map.ipynb\n\n*Notebook conversion failed*\n\n"
    ∧ MarkdownPDFGenerator.processFile fsC8
        "solutions/object_oriented_design/hash_table/hash_map.ipynb"
      ≠ "\x23 /repo/solutions/object_oriented_design/hash_table/hash_map.ipynb\n\n*Notebook conversion failed*\n\n" := by
  refine ⟨by decide, by decide⟩

/-- C8 amended: when pandoc fails on a notebook whose absolute path is
plain ASCII with no `"` or `[` characters, the loaded content is exactly
the two-line placeholder (heading naming the path, then the italic
`Notebook conversion failed` marker), it passes through the Unicode
cleanup and link rewriting unchanged, and the file's contribution to the
Combined Markdown Document is the standard section header followed by
that placeholder; processing is a total function, so the run continues
with the remaining files. -/
theorem c8_placeholder_contribution (fs : RepoFS) (fp : String)
    (hnb : strEnds fp ".ipynb" = true)
    (hfail : fs.pandoc (fullPath fs fp) = none)
    (hA : ∀ c ∈ (fullPath fs fp).data, c.toNat < 128)
    (hq : '\x22' ∉ (fullPath fs fp).data)
    (hb : '[' ∉ (fullPath fs fp).data) :
    MarkdownPDFGenerator.processFile fs fp
      = add_section_header fp
          ("\x23 " ++ fullPath fs fp ++ "\n\n*Notebook conversion failed*\n\n") := by
  have hph : MarkdownPDFGenerator.convert_notebook_to_markdown fs (fullPath fs fp)
      = "\x23 " ++ fullPath fs fp ++ "\n\n*Notebook conversion failed*\n\n" := by
    unfold MarkdownPDFGenerator.convert_notebook_to_markdown
    rw [hfail]
  have hdata : ("\x23 " ++ fullPath fs fp ++ "\n\n*Notebook conversion failed*\n\n").data
      = "\x23 ".data ++ (fullPath fs fp).data ++ "\n\n*Notebook conversion failed*\n\n".data := by
    rw [strData_append, strData_append]
  have hpre : ∀ c ∈ "\x23 ".data, c.toNat < 128 := by decide
  have hsuf : ∀ c ∈ "\n\n*Notebook conversion failed*\n\n".data, c.toNat < 128 := by decide
  have hqpre : '\x22' ∉ "\x23 ".data := by decide
  have hqsuf : '\x22' ∉ "\n\n*Notebook conversion failed*\n\n".data := by decide
  have hbpre : '[' ∉ "\x23 ".data := by decide
  have hbsuf : '[' ∉ "\n\n*Notebook conversion failed*\n\n".data := by decide
  have hA2 : ∀ c ∈ ("\x23 " ++ fullPath fs fp ++ "\n\n*Notebook conversion failed*\n\n").data,
      c.toNat < 128 := by
    intro c hc
    rw [hdata] at hc
    rcases List.mem_append.mp hc with hc2 | hc2
    · rcases List.mem_append.mp hc2 with hc3 | hc3
      · exact hpre c hc3
      · exact hA c hc3
    · exact hsuf c hc2
  have hq2 : '\x22' ∉ ("\x23 " ++ fullPath fs fp ++ "\n\n*Notebook conversion failed*\n\n").data := by
    rw [hdata]
    intro hc
    rcases List.mem_append.mp hc with hc2 | hc2
    · rcases List.mem_append.mp hc2 with hc3 | hc3
      · exact hqpre hc3
      · exact hq hc3
    · exact hqsuf hc2
  have hb2 : '[' ∉ ("\x23 " ++ fullPath fs fp ++ "\n\n*Notebook conversion failed*\n\n").data := by
    rw [hdata]
    intro hc
    rcases List.mem_append.mp hc with hc2 | hc2
    · rcases List.mem_append.mp hc2 with hc3 | hc3
      · exact hbpre hc3
      · exact hb hc3
    · exact hbsuf hc2
  simp only [MarkdownPDFGenerator.processFile, hnb, eq_self_iff_true, if_true]
  rw [hph, clean_unicode_id _ hA2 hq2, process_internal_links_id _ _ hb2]

theorem c8_placeholder_contribution_witness :
    strEnds "solutions/object_oriented_design/hash_table/hash_map.ipynb" ".ipynb" = true
    ∧ fsC8.pandoc (fullPath fsC8 "solutions/object_oriented_design/hash_table/hash_map.ipynb") = none
    ∧ MarkdownPDFGenerator.processFile fsC8
          "solutions/object_oriented_design/hash_table/hash_map.ipynb"
        = add_section_header "solutions/object_oriented_design/hash_table/hash_map.ipynb"
            ("\x23 " ++ fullPath fsC8 "solutions/object_oriented_design/hash_table/hash_map.ipynb"
              ++ "\n\n*Notebook conversion failed*\n\n") :=
  ⟨by decide, rfl,
    c8_placeholder_contribution fsC8
      "solutions/object_oriented_design/hash_table/hash_map.ipynb"
      (by decide) rfl (by decide) (by decide) (by decide)⟩

/-- C9: the Unicode cleanup is NOT idempotent.  Because the two
`single quote` lines of the `replacements` dict literal begin with three
consecutive single quotes, Python parses them as one triple-quoted string,
so the effective table maps the 49-character text `quoteKey` to a single
quote.  On `c9Input` (that key with itself spliced in at its own quote
position) one application yields `quoteKey` itself and a second
application collapses it to `'`, contradicting the claimed idempotence;
the table the source comments describe (curly quotes to ASCII quotes)
would be idempotent, so the code contradicts its own documentation. -/
theorem c9_not_idempotent :
    clean_unicode_characters c9Input = quoteKey
    ∧ clean_unicode_characters (clean_unicode_characters c9Input) = "\x27"
    ∧ clean_unicode_characters (clean_unicode_characters c9Input)
        ≠ clean_unicode_characters c9Input := by
  refine ⟨by decide, by decide, by decide⟩

/-- C10: a URL that starts with `solutions/` but splits into fewer than 4
slash-separated segments gets no solutions-specific rewriting: the result
is exactly what the later rules (`mdLinkRest`) produce.  In particular
`[text](solutions/README.md)` becomes an anchor to `solutions` via the
parent-directory rule and `[text](solutions/foo.py)` is left unchanged. -/
theorem c10_solutions_short_urls :
    (∀ text url, strStarts url "solutions/" = true →
      (splitSlashStr url).length < 4 →
      replace_md_link text url = mdLinkRest text url)
    ∧ (∀ text, replace_md_link text "solutions/README.md" = mkLink text "\x23solutions")
    ∧ (∀ text, replace_md_link text "solutions/foo.py" = mkLink text "solutions/foo.py") := by
  refine ⟨?_, ?_, ?_⟩
  · intro text url h1 h2
    have hh := not_http_of_solutions url h1
    have hd : decide (4 ≤ (splitSlashStr url).length) = false :=
      decide_eq_false (Nat.not_le.mpr h2)
    simp only [replace_md_link, hh, hd, h1, Bool.and_false, if_false, Bool.false_eq_true]
  · intro text
    rfl
  · intro text
    rfl

/-- C4 counterexample: for
`solutions/System_design/pastebin/README.md` the category lower-cases (after
underscore replacement) to `system-design` and the URL ends in `README.md`,
so the claim demands the anchor `#system-design-pastebin`; the code
compares the category before lower-casing (`System-design`), misses both
anchor branches and emits the GitHub `blob/master` URL instead. -/
theorem c4_category_test_not_lowercased :
    asciiLower (strReplace ((splitSlashStr "solutions/System_design/pastebin/README.md").getD 1 "") "_" "-")
        = "system-design"
    ∧ strEnds "solutions/System_design/pastebin/README.md" "README.md" = true
    ∧ 4 ≤ (splitSlashStr "solutions/System_design/pastebin/README.md").length
    ∧ replace_md_link "t" "solutions/System_design/pastebin/README.md"
        = "[t](https://github.com/donnemartin/system-design-primer/blob/master/solutions/System_design/pastebin/README.md)"
    ∧ replace_md_link "t" "solutions/System_design/pastebin/README.md"
        ≠ "[t](\x23system-design-pastebin)" := by
  refine ⟨by decide, by decide, by decide, by decide, by decide⟩

/-- C4 amended: for a `solutions/` URL with at least 4 slash-separated
segments, the category and problem have underscores replaced by hyphens
WITHOUT lower-casing before the test; the link becomes the in-document
anchor (whose text additionally gets lower-cased) when the
hyphen-replaced category is exactly `system-design` and the URL ends in
`README.md`, or when it is exactly `object-oriented-design` and the URL
ends in `.ipynb`; in every other such case it becomes the GitHub
`blob/master` URL.  In particular the Pastebin link becomes
`#system-design-pastebin`. -/
theorem c4_solutions_rewrites (text url : String)
    (h1 : strStarts url "solutions/" = true)
    (h2 : 4 ≤ (splitSlashStr url).length) :
    (strReplace ((splitSlashStr url).getD 1 "") "_" "-" = "system-design" →
      strEnds url "README.md" = true →
      replace_md_link text url = mkLink text ("\x23" ++
        asciiLower (strReplace ((splitSlashStr url).getD 1 "") "_" "-" ++ "-" ++
          strReplace ((splitSlashStr url).getD 2 "") "_" "-")))
    ∧ (strReplace ((splitSlashStr url).getD 1 "") "_" "-" = "object-oriented-design" →
      strEnds url ".ipynb" = true →
      replace_md_link text url = mkLink text ("\x23" ++
        asciiLower (strReplace ((splitSlashStr url).getD 1 "") "_" "-" ++ "-" ++
          strReplace ((splitSlashStr url).getD 2 "") "_" "-")))
    ∧ (¬(strReplace ((splitSlashStr url).getD 1 "") "_" "-" = "system-design"
          ∧ strEnds url "README.md" = true) →
      ¬(strReplace ((splitSlashStr url).getD 1 "") "_" "-" = "object-oriented-design"
          ∧ strEnds url ".ipynb" = true) →
      replace_md_link text url = mkLink text (github_blob_base ++ "/" ++ url)) := by
  have hh := not_http_of_solutions url h1
  have hd : decide (4 ≤ (splitSlashStr url).length) = true := decide_eq_true h2
  refine ⟨?_, ?_, ?_⟩
  · intro hst hr
    simp only [replace_md_link, hh, Bool.false_eq_true, if_false, h1, hd,
      Bool.and_self, if_true, hst, hr]
    simp
  · intro hst hi
    simp only [replace_md_link, hh, Bool.false_eq_true, if_false, h1, hd,
      Bool.and_self, if_true, hst, hi]
    simp
  · intro hn1 hn2
    have e1 : (strReplace ((splitSlashStr url).getD 1 "") "_" "-" == "system-design"
        && strEnds url "README.md") = false := by
      rw [Bool.eq_false_iff]
      intro hx
      rw [Bool.and_eq_true, beq_iff_eq] at hx
      exact hn1 hx
    have e2 : (strReplace ((splitSlashStr url).getD 1 "") "_" "-" == "object-oriented-design"
        && strEnds url ".ipynb") = false := by
      rw [Bool.eq_false_iff]
      intro hx
      rw [Bool.and_eq_true, beq_iff_eq] at hx
      exact hn2 hx
    simp only [replace_md_link, hh, Bool.false_eq_true, if_false, h1, hd,
      Bool.and_self, if_true, e1, e2]

theorem c4_solutions_rewrites_witness :
    strStarts "solutions/system_design/pastebin/README.md" "solutions/" = true
    ∧ 4 ≤ (splitSlashStr "solutions/system_design/pastebin/README.md").length
    ∧ replace_md_link "Pastebin" "solutions/system_design/pastebin/README.md"
        = "[Pastebin](\x23system-design-pastebin)" :=
  ⟨by decide, by decide,
    ((c4_solutions_rewrites "Pastebin" "solutions/system_design/pastebin/README.md"
      (by decide) (by decide)).1 (by decide) (by decide)).trans (by decide)⟩

/-- C7 counterexample: for the URL `x.md.md` (not under `solutions/`, ends
in `.md`) the filename minus its `.md` extension and minus the word
`README` is `x.md`, so the claim demands the anchor `#x.md`; the code
removes EVERY occurrence of `.md` from the basename (Python `replace`),
yielding the anchor `#x` instead. -/
theorem c7_all_occurrences_removed :
    strEnds "x.md.md" ".md" = true
    ∧ strStarts "x.md.md" "http://" = false
    ∧ strStarts "x.md.md" "https://" = false
    ∧ strStarts "x.md.md" "solutions/" = false
    ∧ strReplace (stripOneSuffix (basenameStr "x.md.md") ".md") "README" "" = "x.md"
    ∧ replace_md_link "t" "x.md.md" = "[t](\x23x)"
    ∧ replace_md_link "t" "x.md.md"
        ≠ mkLink "t" ("\x23" ++ asciiLower (strReplace (strReplace "x.md" "_" "-") " " "-")) := by
  refine ⟨by decide, by decide, by decide, by decide, by decide, by decide, by decide⟩

/-- C7 amended: for a URL ending in `.md` that starts with none of
`http://`, `https://`, `solutions/`, the code builds the filename by
removing EVERY occurrence of `.md` and every occurrence of `README` from
the basename; a non-empty result becomes a lower-cased hyphenated anchor,
an empty result with a non-empty parent directory becomes an anchor to the
parent's hyphenated base name, and an empty result with no parent
directory becomes `#main-readme`. -/
theorem c7_generic_md_rewrites (text url : String)
    (hh1 : strStarts url "http://" = false)
    (hh2 : strStarts url "https://" = false)
    (hs : strStarts url "solutions/" = false)
    (hmd : strEnds url ".md" = true) :
    (strReplace (strReplace (basenameStr url) ".md" "") "README" "" ≠ "" →
      replace_md_link text url = mkLink text ("\x23" ++
        asciiLower (strReplace (strReplace
          (strReplace (strReplace (basenameStr url) ".md" "") "README" "") "_" "-") " " "-")))
    ∧ (strReplace (strReplace (basenameStr url) ".md" "") "README" "" = "" →
      dirnameStr url ≠ "" →
      replace_md_link text url = mkLink text ("\x23" ++
        strReplace (basenameStr (dirnameStr url)) "_" "-"))
    ∧ (strReplace (strReplace (basenameStr url) ".md" "") "README" "" = "" →
      dirnameStr url = "" →
      replace_md_link text url = mkLink text "\x23main-readme") := by
  have hrest : replace_md_link text url = mdLinkRest text url := by
    simp only [replace_md_link, hh1, hh2, hs, Bool.or_self, Bool.false_eq_true, if_false,
      Bool.false_and]
  refine ⟨?_, ?_, ?_⟩
  · intro hf
    rw [hrest]
    simp only [mdLinkRest, hmd, if_true, if_pos hf]
  · intro hf hdir
    rw [hrest]
    simp only [mdLinkRest, hmd, if_true, hf]
    simp only [ne_eq, not_true_eq_false, if_false, if_pos hdir]
  · intro hf hdir
    rw [hrest]
    simp only [mdLinkRest, hmd, if_true, hf, hdir]
    simp

theorem c7_generic_md_rewrites_witness :
    strEnds "query_cache/README.md" ".md" = true
    ∧ replace_md_link "See Cache" "query_cache/README.md"
        = "[See Cache](\x23query-cache)" :=
  ⟨by decide,
    ((c7_generic_md_rewrites "See Cache" "query_cache/README.md"
      (by decide) (by decide) (by decide) (by decide)).2.1
      (by decide) (by decide)).trans (by decide)⟩

theorem c10_solutions_short_urls_witness :
    strStarts "solutions/a.md" "solutions/" = true
    ∧ (splitSlashStr "solutions/a.md").length < 4
    ∧ replace_md_link "t" "solutions/a.md" = mdLinkRest "t" "solutions/a.md" :=
  ⟨by decide, by decide, c10_solutions_short_urls.1 "t" "solutions/a.md" (by decide) (by decide)⟩
